/-
Verification of the CropCare client application (App.tsx and
components/ImageUpload.tsx) against its natural-language specification.

The TypeScript source is shallowly embedded: React `useState` cells become
fields of explicit state records, event handlers become state-transition
functions, browser/device nondeterminism (getUserMedia success, canvas
context availability, play outcomes, UUIDs, dates) becomes explicit
parameters, and JavaScript exceptions become `Except`.
-/
import Mathlib

namespace CropCare

/-! ## Data model (App.tsx)

`ScanResult.results` is the nested analysis payload returned by the
analysis service; JavaScript numbers are embedded as `Int` (no arithmetic
is ever performed on them by the code under verification). -/

structure AnalysisResults where
  crop_name : String
  disease_detected : Bool
  disease_name : String
  confidence_percentage : Int
  danger_level : Int
  symptoms : List String
  treatments : List String
  prevention_tips : List String
  disease_description : String
deriving DecidableEq

structure ScanResult where
  id : String
  date : String
  imageUrl : String
  cropName : String
  diseaseDetected : Bool
  diseaseName : String
  confidencePercentage : Int
  results : AnalysisResults
deriving DecidableEq

/-! ## History store (App.tsx, saveToHistory)

The localStorage cell `cropcare_history` holds either nothing
(`getItem` returns null) or a string.  For the purposes of
`JSON.parse`/`Array.prototype.unshift` a stored string is exactly one of:
unparseable text (`JSON.parse` throws a SyntaxError), well-formed JSON
that is not an array (`.unshift` throws a TypeError), or a JSON array of
scan results.  `StoredCell` is that abstraction of the cell contents. -/

inductive StoredCell where
  | absent : StoredCell
  | malformed : StoredCell
  | nonArray : StoredCell
  | arrayOf : List ScanResult → StoredCell
deriving DecidableEq

inductive JsError where
  | syntaxError : JsError
  | typeError : JsError
deriving DecidableEq

/-- The history item constructed at the top of `saveToHistory`.  The
browser-supplied `crypto.randomUUID()` and `new Date().toLocaleString()`
are passed in as parameters `uid` and `date`. -/
def mkHistoryItem (uid date imageBase64 : String) (results : AnalysisResults) :
    ScanResult :=
  { id := uid
    date := date
    imageUrl := imageBase64
    cropName := results.crop_name
    diseaseDetected := results.disease_detected
    diseaseName := results.disease_name
    confidencePercentage := results.confidence_percentage
    results := results }

/-- The storage half of `saveToHistory`:
`const savedHistory = localStorage.getItem('cropcare_history');`
`const history = savedHistory ? JSON.parse(savedHistory) : [];`
`history.unshift(historyItem);`
`localStorage.setItem('cropcare_history', JSON.stringify(history.slice(0, 50)));`
`JSON.parse` throws on malformed text and `unshift` throws on a non-array,
so those cells yield a `JsError`; otherwise the new persisted list is the
item consed onto the parsed list, truncated to 50. -/
def saveToHistory (item : ScanResult) (cell : StoredCell) :
    Except JsError (List ScanResult) :=
  match cell with
  | .absent => .ok ((item :: []).take 50)
  | .malformed => .error .syntaxError
  | .nonArray => .error .typeError
  | .arrayOf history => .ok ((item :: history).take 50)

/-- Effect of one `saveToHistory` call on the storage cell: on success the
truncated list is persisted; when the call throws, nothing is written. -/
def appendAnalysis (item : ScanResult) (cell : StoredCell) : StoredCell :=
  match saveToHistory item cell with
  | .ok newList => .arrayOf newList
  | .error _ => cell

/-- Storage cell after appending `items` in chronological order (oldest
first) to an initially empty store. -/
def cellAfter (items : List ScanResult) : StoredCell :=
  items.foldl (fun cell item => appendAnalysis item cell) .absent

/-- The list of scan results a storage cell represents when read back. -/
def cellList : StoredCell → List ScanResult
  | .arrayOf history => history
  | _ => []

/-- Persisted history list after appending `items` (oldest first) to an
initially empty store. -/
def historyAfter (items : List ScanResult) : List ScanResult :=
  cellList (cellAfter items)

/-- Modelled from the spec: the `loadAll` read path of the History Store
lives in the History component, which is not among the provided source
files.  Per the spec it "returns the persisted list, or an empty list if
none exists or the stored value is not well-formed (treated as no
history, not a fatal error)". -/
def loadAll (cell : StoredCell) : List ScanResult :=
  match cell with
  | .arrayOf history => history
  | _ => []

/-! ## Analysis flow (App.tsx, handleImageAnalysis)

The `useState` cells of `App` that the handler touches, together with the
storage cell written by `saveToHistory`.  The outcome of the awaited
`analyzeImage` call is passed in as an `Except`. -/

structure AppState where
  analyzing : Bool
  results : Option AnalysisResults
  error : Option String
  currentImage : Option String
  storage : StoredCell
deriving DecidableEq

/-- The inline message set by `setError(t('error.analysis'))`. -/
def errorAnalysisMsg : String := "error.analysis"

/-- `handleImageAnalysis` for an already-normalized base64 image string
`img` (the `File` branch only converts the file to such a string first).
It sets `analyzing`/`error`/`currentImage`, awaits `analyzeImage`
(`outcome`), and on success stores the result and calls `saveToHistory`;
any exception thrown inside the `try` block — including the parse/type
error `saveToHistory` throws on a bad storage cell — lands in the `catch`,
which sets the inline error; the `finally` clears `analyzing`. -/
def handleImageAnalysis (uid date img : String)
    (outcome : Except Unit AnalysisResults) (s : AppState) : AppState :=
  let s1 : AppState :=
    { s with analyzing := true, error := none, currentImage := some img }
  match outcome with
  | .error _ =>
      { s1 with error := some errorAnalysisMsg, analyzing := false }
  | .ok r =>
      let s2 : AppState := { s1 with results := some r }
      match saveToHistory (mkHistoryItem uid date img r) s2.storage with
      | .ok newList =>
          { s2 with storage := .arrayOf newList, analyzing := false }
      | .error _ =>
          { s2 with error := some errorAnalysisMsg, analyzing := false }

/-! ## Camera component state (ImageUpload.tsx)

The five `useState` cells of `ImageUpload` other than the stream itself. -/

inductive FacingMode where
  | environment : FacingMode
  | user : FacingMode
deriving DecidableEq

structure UIState where
  showCamera : Bool
  facingMode : FacingMode
  isCameraLoading : Bool
  isTorchSupported : Bool
  isTorchOn : Bool
deriving DecidableEq

/-! ## Capture (ImageUpload.tsx, capturePhoto)

The 2D canvas context is modelled by the horizontal component of its
affine transform (the code only ever calls `translate(w, 0)` and
`scale(-1, 1)`, so the vertical component stays the identity): a pixel
column `x` of the source maps to the half-open interval
`[a*x + e, a*(x+1) + e)` (for `a = 1`) or `[a*(x+1) + e, a*x + e)`
(for `a = -1`) of the destination. -/

structure Ctx2D where
  a : Int
  e : Int
deriving DecidableEq

def Ctx2D.initial : Ctx2D := ⟨1, 0⟩

def Ctx2D.translate (c : Ctx2D) (tx : Int) : Ctx2D :=
  ⟨c.a, c.e + c.a * tx⟩

def Ctx2D.scaleX (c : Ctx2D) (sx : Int) : Ctx2D :=
  ⟨c.a * sx, c.e⟩

/-- Destination pixel column a source pixel column `x` is drawn to, for a
transform with `a = 1` or `a = -1`: the left endpoint of the image of the
cell `[x, x+1)`. -/
def Ctx2D.mapPixel (c : Ctx2D) (x : Int) : Int :=
  min (c.a * x + c.e) (c.a * (x + 1) + c.e)

/-- Source pixel column that lands on destination column `x` (inverse of
`mapPixel` for `a = ±1`). -/
def Ctx2D.srcPixel (c : Ctx2D) (x : Int) : Int :=
  min (c.a * (x - c.e)) (c.a * (x + 1 - c.e))

/-- Abstract raster frame: pixel sample at an integer column and row. -/
def Frame : Type := Int → Int → Nat

/-- The live `<video>` element as `capturePhoto` observes it. -/
structure VideoState where
  readyState : Nat
  videoWidth : Nat
  videoHeight : Nat
  frame : Frame

/-- `HTMLMediaElement.HAVE_METADATA`. -/
def HAVE_METADATA : Nat := 1

structure CapturedImage where
  width : Nat
  height : Nat
  pixel : Frame

inductive CaptureAlert where
  | cameraNotReadyMetadata : CaptureAlert
  | cameraNotReadyDimensions : CaptureAlert
  | captureProcessFailed : CaptureAlert
  | cameraNotAvailable : CaptureAlert
deriving DecidableEq

/-- Observable outcome of one `capturePhoto` call: the alert shown (if
any), the encoded image passed to `onImageSelected` (if any), whether
that callback — and hence the analysis pipeline — was invoked, and
whether `stopCamera()` was called (which is the only way the call
changes camera state or triggers stream cleanup). -/
structure CaptureResult where
  alertMsg : Option CaptureAlert
  image : Option CapturedImage
  callbackInvoked : Bool
  stopRequested : Bool

/-- `capturePhoto`: guards on `videoRef.current`, then
`readyState < HAVE_METADATA`, then zero `videoWidth`/`videoHeight`; sizes
a canvas to the video's native dimensions; `getContext('2d')` may return
null (`ctxOk = false`); in `'user'` mode it applies
`translate(canvas.width, 0)` then `scale(-1, 1)` before `drawImage`; the
drawn canvas is encoded and handed to `onImageSelected`, then
`stopCamera()` runs. -/
def capturePhoto (video : Option VideoState) (ctxOk : Bool)
    (facingMode : FacingMode) : CaptureResult :=
  match video with
  | none => ⟨some .cameraNotAvailable, none, false, false⟩
  | some v =>
      if v.readyState < HAVE_METADATA then
        ⟨some .cameraNotReadyMetadata, none, false, false⟩
      else if v.videoWidth = 0 ∨ v.videoHeight = 0 then
        ⟨some .cameraNotReadyDimensions, none, false, false⟩
      else if ctxOk then
        let c :=
          if facingMode = .user then
            (Ctx2D.initial.translate v.videoWidth).scaleX (-1)
          else Ctx2D.initial
        let img : CapturedImage :=
          ⟨v.videoWidth, v.videoHeight, fun x y => v.frame (c.srcPixel x) y⟩
        ⟨none, some img, true, true⟩
      else
        ⟨some .captureProcessFailed, none, false, false⟩

/-! ## File path (ImageUpload.tsx, handleFile) -/

/-- A selected file; `mimeType` embeds the `File.type` property. -/
structure JsFile where
  mimeType : String
deriving DecidableEq

/-- What one `handleFile` call does: whether `onImageSelected` was invoked
with the file, and whether the rejection alert was shown.  `handleFile`
touches no other state. -/
structure FileOutcome where
  selected : Bool
  alertShown : Bool
deriving DecidableEq

/-- JavaScript's `String.prototype.startsWith`: the receiver's character
sequence begins with the argument's. -/
def jsStartsWith (s pre : String) : Bool :=
  pre.data.isPrefixOf s.data

/-- `handleFile`: `if (file.type.startsWith('image/')) onImageSelected(file);
else alert('Please upload an image file');` -/
def handleFile (f : JsFile) : FileOutcome :=
  if jsStartsWith f.mimeType "image/" then ⟨true, false⟩ else ⟨false, true⟩

/-! ## Stream lifecycle (ImageUpload.tsx, useEffect on [showCamera, facingMode])

Each acquired `MediaStream` gets a fresh numeric id; `live` is the set of
streams whose tracks have not been stopped.  `boundStream` is the React
`stream` state cell; `effectStream` is the `currentStream` local captured
by the pending effect closure (the one its cleanup will stop).  React
runs the previous effect's cleanup before the next effect body, so every
UI event that changes `showCamera` or `facingMode` is modelled as
cleanup-then-setup. -/

structure CamState where
  live : List Nat
  boundStream : Option Nat
  effectStream : Option Nat
  showCamera : Bool
  facingMode : FacingMode
  nextId : Nat
deriving DecidableEq

def CamState.initial : CamState :=
  ⟨[], none, none, false, .environment, 0⟩

/-- The effect's cleanup function: stops every track of the effect's
`currentStream` and clears the `stream` state cell when it still holds
that same stream. -/
def cleanupEffect (s : CamState) : CamState :=
  match s.effectStream with
  | none => s
  | some id =>
      { s with
        live := s.live.erase id
        boundStream := if s.boundStream = some id then none else s.boundStream
        effectStream := none }

/-- First half of `setupStream`, up to just before `getUserMedia` is
awaited: return early unless the camera view is showing, otherwise stop
any previous `stream` still recorded in state.  (After the preceding
cleanup that cell is already clear, so this stop is a no-op there; the
stale closure value it would otherwise see was stopped by the cleanup.) -/
def stopPrevStream (s : CamState) : CamState :=
  match s.boundStream with
  | none => s
  | some id => { s with live := s.live.erase id, boundStream := none }

/-- Second half of `setupStream`: `getUserMedia` resolves (`acqOk = true`)
with a fresh stream that becomes both the `stream` state and the effect's
`currentStream`, or rejects, in which case the camera view is hidden. -/
def acquireStream (acqOk : Bool) (s : CamState) : CamState :=
  if acqOk then
    { s with
      live := s.nextId :: s.live
      boundStream := some s.nextId
      effectStream := some s.nextId
      nextId := s.nextId + 1 }
  else
    { s with showCamera := false }

/-- The whole `setupStream` body. -/
def setupStream (acqOk : Bool) (s : CamState) : CamState :=
  if s.showCamera then acquireStream acqOk (stopPrevStream s) else s

/-- One run of the effect: previous cleanup, then `setupStream`. -/
def effectCycle (acqOk : Bool) (s : CamState) : CamState :=
  setupStream acqOk (cleanupEffect s)

/-- UI events that drive the `[showCamera, facingMode]` effect. -/
inductive CamEvent where
  | startCamera (acqOk : Bool) : CamEvent
  | stopCameraReq : CamEvent
  | toggleFacing (acqOk : Bool) : CamEvent
  | unmount : CamEvent
deriving DecidableEq

/-- `handleStartCameraClick` sets facing mode to the rear default and
shows the camera; `stopCamera` hides it; `toggleCamera` flips the facing
mode; each state change reruns the effect (cleanup then setup).
Unmounting runs only the cleanup. -/
def camStep (ev : CamEvent) (s : CamState) : CamState :=
  match ev with
  | .startCamera acqOk =>
      effectCycle acqOk { s with facingMode := .environment, showCamera := true }
  | .stopCameraReq =>
      effectCycle true { s with showCamera := false }
  | .toggleFacing acqOk =>
      effectCycle acqOk
        { s with
          facingMode :=
            if s.facingMode = .environment then .user else .environment }
  | .unmount => cleanupEffect s

def camRun (evs : List CamEvent) : CamState :=
  evs.foldl (fun s ev => camStep ev s) CamState.initial

/-- States the camera subsystem can actually reach from the initial
(closed) state. -/
def CamReachable (s : CamState) : Prop :=
  ∃ evs : List CamEvent, camRun evs = s

/-- The facing-mode toggle as the user experiences it: flip the mode, run
the old effect's cleanup, stop any recorded previous stream — and only
then request the new stream.  `toggleMidState` is the state at the moment
`getUserMedia` is issued. -/
def toggleMidState (s : CamState) : CamState :=
  stopPrevStream
    (cleanupEffect
      { s with
        facingMode :=
          if s.facingMode = .environment then .user else .environment })

/-! ## Playback signals (ImageUpload.tsx, setupStream play attempts)

After the stream is attached, the code awaits an immediate
`videoElement.play()` and also installs an `onloadedmetadata` handler that
awaits `play()` again.  Immediate success clears the loading flag;
immediate failure does nothing (the code waits for the metadata handler);
the metadata handler clears the flag whether its play succeeds or fails. -/

inductive PlaySignal where
  | immediateOk : PlaySignal
  | immediateErr : PlaySignal
  | metadataOk : PlaySignal
  | metadataErr : PlaySignal
deriving DecidableEq

/-- Effect of one playback signal on the component state. -/
def applySignal (sig : PlaySignal) (s : UIState) : UIState :=
  match sig with
  | .immediateErr => s
  | _ => { s with isCameraLoading := false }

/-- Signals that end the loading state: a playback attempt that ran to
its `setIsCameraLoading(false)` line. -/
def PlaySignal.completes : PlaySignal → Bool
  | .immediateErr => false
  | _ => true

/-! ## Torch toggle (ImageUpload.tsx, toggleTorch) -/

/-- The first video track of the active stream as `toggleTorch` observes
it: whether `getCapabilities().torch` is present and truthy, and the
current `getSettings().torch` value. -/
structure VideoTrack where
  torchCapability : Bool
  torchSetting : Bool
deriving DecidableEq

/-- The active `MediaStream` from `toggleTorch`'s point of view:
`getVideoTracks()` may be empty. -/
structure StreamInfo where
  track : Option VideoTrack
deriving DecidableEq

inductive TorchAlert where
  | torchNotSupported : TorchAlert
  | torchToggleFailed : TorchAlert
deriving DecidableEq

/-- Observable outcome of one `toggleTorch` call: the new component
state, the alert shown (if any), and the torch value sent to the device
through `applyConstraints` (if the call got that far and it succeeded). -/
structure TorchResult where
  state : UIState
  alertMsg : Option TorchAlert
  deviceCmd : Option Bool
deriving DecidableEq

/-- `toggleTorch`: silently does nothing without a stream; alerts when the
first track is missing or reports no torch capability; otherwise applies
the opposite of the current device torch setting (`applyOk = false` models
`applyConstraints` rejecting, which skips the flag flip and alerts). -/
def toggleTorch (stream : Option StreamInfo) (applyOk : Bool)
    (s : UIState) : TorchResult :=
  match stream with
  | none => ⟨s, none, none⟩
  | some st =>
      match st.track with
      | none => ⟨s, some .torchNotSupported, none⟩
      | some tr =>
          if tr.torchCapability then
            if applyOk then
              ⟨{ s with isTorchOn := !s.isTorchOn }, none,
                some (!tr.torchSetting)⟩
            else
              ⟨s, some .torchToggleFailed, none⟩
          else
            ⟨s, some .torchNotSupported, none⟩

/-! ## Sample data for witnesses -/

def sampleResults : AnalysisResults :=
  ⟨"tomato", true, "blight", 90, 70, [], [], [], ""⟩

def sampleItem (n : Nat) : ScanResult :=
  mkHistoryItem (toString n) "2024-01-01" "img" sampleResults

def sampleItems (n : Nat) : List ScanResult :=
  (List.range n).map sampleItem

/-! ## History store theorems -/

theorem take_cons_take {α : Type} (n : Nat) (x : α) (l : List α) :
    (x :: l.take n).take n = (x :: l).take n := by
  cases n with
  | zero => simp
  | succ m =>
      have hmin : min m (m + 1) = m := by omega
      simp [List.take_succ_cons, List.take_take, hmin]

theorem foldAppend_arrayOf (items : List ScanResult) (l : List ScanResult) :
    items.foldl (fun cell item => appendAnalysis item cell)
        (.arrayOf (l.take 50)) =
      .arrayOf ((items.reverse ++ l).take 50) := by
  induction items generalizing l with
  | nil => simp
  | cons x xs ih =>
      rw [List.foldl_cons]
      have h1 : appendAnalysis x (.arrayOf (l.take 50)) =
          .arrayOf ((x :: l).take 50) := by
        simp [appendAnalysis, saveToHistory, List.take_take]
      rw [h1, ih (x :: l)]
      simp [List.reverse_cons, List.append_assoc]

theorem historyAfter_eq (items : List ScanResult) :
    historyAfter items = items.reverse.take 50 := by
  cases items with
  | nil => rfl
  | cons x xs =>
      have h0 : appendAnalysis x .absent = .arrayOf (([x] : List ScanResult).take 50) := by
        simp [appendAnalysis, saveToHistory]
      have := foldAppend_arrayOf xs [x]
      simp only [historyAfter, cellAfter, List.foldl_cons, h0, this, cellList]
      simp [List.reverse_cons]

/-- C1: every sequence of appends through `saveToHistory` keeps the
persisted history at length at most 50 with the newly appended entry at
index 0, and appending more than 50 entries retains exactly the 50 most
recent in reverse chronological order. -/
theorem saveToHistory_cap_and_order :
    (∀ (done : List ScanResult) (item : ScanResult),
        (historyAfter (done ++ [item])).length ≤ 50
        ∧ (historyAfter (done ++ [item])).head? = some item)
    ∧ ∀ items : List ScanResult, 50 < items.length →
        historyAfter items = items.reverse.take 50 := by
  constructor
  · intro done item
    rw [historyAfter_eq]
    constructor
    · simp [List.length_take_le]
    · rw [List.reverse_append, List.reverse_singleton, List.singleton_append]
      rw [show (50 : Nat) = 49 + 1 from rfl, List.take_succ_cons]
      rfl
  · intro items _
    exact historyAfter_eq items

/-- C1 witness: fifty-one concrete appends. -/
theorem saveToHistory_cap_and_order_witness :
    50 < (sampleItems 51).length
    ∧ historyAfter (sampleItems 51) = (sampleItems 51).reverse.take 50 :=
  ⟨by decide, saveToHistory_cap_and_order.2 (sampleItems 51) (by decide)⟩

/-- C2 counterexample: appending to a malformed stored value does not
proceed as if the prior list were empty — `JSON.parse(savedHistory)`
throws, so `saveToHistory` produces an error instead of the singleton
list an empty prior history would give, and nothing is persisted. -/
theorem saveToHistory_malformed_counterexample :
    saveToHistory (sampleItem 0) .malformed = .error .syntaxError
    ∧ saveToHistory (sampleItem 0) .malformed ≠ .ok [sampleItem 0]
    ∧ appendAnalysis (sampleItem 0) .malformed = .malformed := by
  refine ⟨rfl, ?_, rfl⟩
  simp [saveToHistory]

/-- C2 amended: an absent stored value is treated as empty history by
both the (spec-modelled) load path and the append path; a stored value
that does not parse as the expected JSON array yields the empty list on
load, but `saveToHistory` throws on it (SyntaxError from `JSON.parse`,
or TypeError from `unshift` on a non-array) and persists nothing — the
exception propagates to the caller instead of the append proceeding on
an empty list. -/
theorem history_malformed_handling :
    (∀ item : ScanResult, saveToHistory item .absent = .ok [item])
    ∧ (loadAll .absent = [] ∧ loadAll .malformed = [] ∧ loadAll .nonArray = [])
    ∧ ∀ (item : ScanResult) (cell : StoredCell),
        cell = .malformed ∨ cell = .nonArray →
          (∃ e, saveToHistory item cell = .error e)
          ∧ appendAnalysis item cell = cell := by
  refine ⟨fun item => rfl, ⟨rfl, rfl, rfl⟩, ?_⟩
  rintro item cell (rfl | rfl)
  · exact ⟨⟨.syntaxError, rfl⟩, rfl⟩
  · exact ⟨⟨.typeError, rfl⟩, rfl⟩

/-- C2 witness: the amended behaviour at a concrete malformed cell. -/
theorem history_malformed_handling_witness :
    (StoredCell.malformed = StoredCell.malformed
      ∨ StoredCell.malformed = StoredCell.nonArray)
    ∧ (∃ e, saveToHistory (sampleItem 2) .malformed = .error e)
    ∧ appendAnalysis (sampleItem 2) .malformed = .malformed :=
  ⟨Or.inl rfl,
    history_malformed_handling.2.2 (sampleItem 2) .malformed (Or.inl rfl)⟩

/-! ## Analysis flow theorems -/

/-- Idle `App` state with a given storage cell. -/
def idleApp (cell : StoredCell) : AppState :=
  ⟨false, none, none, none, cell⟩

/-- C3 counterexample: with a malformed stored history, a *successful*
analysis ends with the inline error indicator visible and no history
entry written — `saveToHistory` throws inside the `try`, the `catch`
sets the error — contradicting "if it succeeds, exactly one history
entry is written and the error indicator is absent". -/
theorem handleImageAnalysis_success_counterexample :
    (handleImageAnalysis "uid" "date" "img" (.ok sampleResults)
        (idleApp .malformed)).error ≠ none
    ∧ (handleImageAnalysis "uid" "date" "img" (.ok sampleResults)
        (idleApp .malformed)).storage = .malformed := by
  constructor
  · simp [handleImageAnalysis, idleApp, saveToHistory]
  · rfl

/-- C3 amended: on analysis failure no history entry is written, the
inline error message becomes visible and the analyzing flag is cleared;
on success with an absent or well-formed stored history, exactly one
entry (the new item at the front, list truncated to 50) is written and
the error indicator is absent — but on success with a stored value that
does not parse as a JSON array, the save throws, nothing is written and
the error indicator becomes visible instead. -/
theorem handleImageAnalysis_spec (uid date img : String)
    (res : AnalysisResults) (s : AppState) :
    ((handleImageAnalysis uid date img (.error ()) s).storage = s.storage
      ∧ (handleImageAnalysis uid date img (.error ()) s).error
          = some errorAnalysisMsg
      ∧ (handleImageAnalysis uid date img (.error ()) s).analyzing = false)
    ∧ (∀ l : List ScanResult, s.storage = .arrayOf l →
        (handleImageAnalysis uid date img (.ok res) s).storage
            = .arrayOf ((mkHistoryItem uid date img res :: l).take 50)
        ∧ (handleImageAnalysis uid date img (.ok res) s).error = none
        ∧ (handleImageAnalysis uid date img (.ok res) s).analyzing = false)
    ∧ (s.storage = .absent →
        (handleImageAnalysis uid date img (.ok res) s).storage
            = .arrayOf [mkHistoryItem uid date img res]
        ∧ (handleImageAnalysis uid date img (.ok res) s).error = none
        ∧ (handleImageAnalysis uid date img (.ok res) s).analyzing = false)
    ∧ ((s.storage = .malformed ∨ s.storage = .nonArray) →
        (handleImageAnalysis uid date img (.ok res) s).storage = s.storage
        ∧ (handleImageAnalysis uid date img (.ok res) s).error
            = some errorAnalysisMsg
        ∧ (handleImageAnalysis uid date img (.ok res) s).analyzing = false) := by
  refine ⟨⟨rfl, rfl, rfl⟩, ?_, ?_, ?_⟩
  · intro l hl
    simp [handleImageAnalysis, saveToHistory, hl]
  · intro hl
    simp [handleImageAnalysis, saveToHistory, hl]
  · rintro (hl | hl) <;> simp [handleImageAnalysis, saveToHistory, hl]

/-- C3 witness: a failed and a successful analysis against an initially
empty well-formed store. -/
theorem handleImageAnalysis_spec_witness :
    (idleApp (.arrayOf [])).storage = .arrayOf []
    ∧ ((handleImageAnalysis "u" "d" "i" (.ok sampleResults)
          (idleApp (.arrayOf []))).storage
        = .arrayOf ((mkHistoryItem "u" "d" "i" sampleResults :: []).take 50)
      ∧ (handleImageAnalysis "u" "d" "i" (.ok sampleResults)
          (idleApp (.arrayOf []))).error = none
      ∧ (handleImageAnalysis "u" "d" "i" (.ok sampleResults)
          (idleApp (.arrayOf []))).analyzing = false) :=
  ⟨rfl,
    (handleImageAnalysis_spec "u" "d" "i" sampleResults
        (idleApp (.arrayOf []))).2.1 [] rfl⟩

/-! ## Capture theorems -/

/-- A video element that has not yet loaded metadata. -/
def notReadyVideo : VideoState :=
  ⟨0, 640, 480, fun _ _ => 0⟩

/-- A live video element with loaded metadata and nonzero dimensions. -/
def readyVideo : VideoState :=
  ⟨4, 640, 480, fun x y => (x + 2 * y).toNat⟩

/-- C4: a capture issued before the video has reported metadata, or
while a reported dimension is zero, only alerts: no image is produced,
`onImageSelected` (and hence the analysis pipeline) is not invoked, and
`stopCamera` is not called, so the camera state is unchanged. -/
theorem capturePhoto_rejects_not_ready (v : VideoState) (ctxOk : Bool)
    (mode : FacingMode)
    (h : v.readyState < HAVE_METADATA ∨ v.videoWidth = 0 ∨ v.videoHeight = 0) :
    (capturePhoto (some v) ctxOk mode).alertMsg.isSome = true
    ∧ (capturePhoto (some v) ctxOk mode).image = none
    ∧ (capturePhoto (some v) ctxOk mode).callbackInvoked = false
    ∧ (capturePhoto (some v) ctxOk mode).stopRequested = false := by
  simp only [capturePhoto]
  split_ifs with h1 h2 h3 <;> simp_all

/-- C4 witness: capture against a video that has no metadata yet. -/
theorem capturePhoto_rejects_not_ready_witness :
    (notReadyVideo.readyState < HAVE_METADATA
      ∨ notReadyVideo.videoWidth = 0 ∨ notReadyVideo.videoHeight = 0)
    ∧ (capturePhoto (some notReadyVideo) true .environment).alertMsg.isSome = true
    ∧ (capturePhoto (some notReadyVideo) true .environment).image = none
    ∧ (capturePhoto (some notReadyVideo) true .environment).callbackInvoked = false
    ∧ (capturePhoto (some notReadyVideo) true .environment).stopRequested = false :=
  ⟨Or.inl (by decide),
    capturePhoto_rejects_not_ready notReadyVideo true .environment
      (Or.inl (by decide))⟩

/-- C5: on a successful capture, the front-facing (`'user'`) frame drawn
to the canvas is horizontally mirrored relative to the raw sensor frame
(canvas column `x` holds sensor column `width - 1 - x`), while the
rear-facing (`'environment'`) frame is drawn unmirrored. -/
theorem capturePhoto_mirroring (v : VideoState)
    (hready : ¬ v.readyState < HAVE_METADATA)
    (hw : ¬ v.videoWidth = 0) (hh : ¬ v.videoHeight = 0) :
    ∀ x y : Int,
      (capturePhoto (some v) true .user).image.map (fun img => img.pixel x y)
          = some (v.frame ((v.videoWidth : Int) - 1 - x) y)
      ∧ (capturePhoto (some v) true .environment).image.map
            (fun img => img.pixel x y)
          = some (v.frame x y) := by
  intro x y
  have hdim : ¬ (v.videoWidth = 0 ∨ v.videoHeight = 0) := by
    rintro (h | h) <;> [exact hw h; exact hh h]
  constructor
  · simp only [capturePhoto, if_neg hready, if_neg hdim, if_pos rfl, if_true,
      Option.map_some]
    have : Ctx2D.srcPixel
        ((Ctx2D.initial.translate v.videoWidth).scaleX (-1)) x
          = (v.videoWidth : Int) - 1 - x := by
      simp only [Ctx2D.initial, Ctx2D.translate, Ctx2D.scaleX, Ctx2D.srcPixel]
      omega
    simp [this]
  · simp only [capturePhoto, if_neg hready, if_neg hdim, if_true,
      Option.map_some]
    have : Ctx2D.srcPixel Ctx2D.initial x = x := by
      simp only [Ctx2D.initial, Ctx2D.srcPixel]
      omega
    simp [this]

/-- C5 witness: mirrored and unmirrored pixel lookups on a ready video. -/
theorem capturePhoto_mirroring_witness :
    (¬ readyVideo.readyState < HAVE_METADATA)
    ∧ (¬ readyVideo.videoWidth = 0) ∧ (¬ readyVideo.videoHeight = 0)
    ∧ ((capturePhoto (some readyVideo) true .user).image.map
          (fun img => img.pixel 3 5)
        = some (readyVideo.frame ((readyVideo.videoWidth : Int) - 1 - 3) 5)
      ∧ (capturePhoto (some readyVideo) true .environment).image.map
          (fun img => img.pixel 3 5)
        = some (readyVideo.frame 3 5)) :=
  ⟨by decide, by decide, by decide,
    capturePhoto_mirroring readyVideo (by decide) (by decide) (by decide) 3 5⟩

/-- C10: when the video is ready (metadata loaded, nonzero dimensions)
but the 2D context of the capture canvas cannot be obtained,
`capturePhoto` alerts and returns: no image, no callback, and no
`stopCamera` — the stream stays live and no cleanup is triggered. -/
theorem capturePhoto_ctx_failure (v : VideoState) (mode : FacingMode)
    (hready : ¬ v.readyState < HAVE_METADATA)
    (hw : ¬ v.videoWidth = 0) (hh : ¬ v.videoHeight = 0) :
    capturePhoto (some v) false mode
      = ⟨some .captureProcessFailed, none, false, false⟩ := by
  have hdim : ¬ (v.videoWidth = 0 ∨ v.videoHeight = 0) := by
    rintro (h | h) <;> [exact hw h; exact hh h]
  simp [capturePhoto, if_neg hready, if_neg hdim]

/-- C10 witness: context failure on a ready video. -/
theorem capturePhoto_ctx_failure_witness :
    (¬ readyVideo.readyState < HAVE_METADATA)
    ∧ (¬ readyVideo.videoWidth = 0) ∧ (¬ readyVideo.videoHeight = 0)
    ∧ capturePhoto (some readyVideo) false .user
        = ⟨some .captureProcessFailed, none, false, false⟩ :=
  ⟨by decide, by decide, by decide,
    capturePhoto_ctx_failure readyVideo .user (by decide) (by decide) (by decide)⟩

/-! ## File path theorem -/

/-- C6: `handleFile` invokes `onImageSelected` — the entry point of the
analysis pipeline — exactly when the file's declared media type starts
with `image/`; any other file gets the rejection alert and nothing else:
no callback, no state change (`handleFile` touches no state). -/
theorem handleFile_image_only (f : JsFile) :
    ((handleFile f).selected = true ↔ jsStartsWith f.mimeType "image/" = true)
    ∧ (jsStartsWith f.mimeType "image/" = false →
        handleFile f = ⟨false, true⟩) := by
  by_cases h : jsStartsWith f.mimeType "image/" <;> simp [handleFile, h]

/-- C6 witness: a PDF file is rejected. -/
theorem handleFile_image_only_witness :
    jsStartsWith (JsFile.mk "application/pdf").mimeType "image/" = false
    ∧ handleFile (JsFile.mk "application/pdf") = ⟨false, true⟩ :=
  ⟨by decide, (handleFile_image_only (JsFile.mk "application/pdf")).2 (by decide)⟩

/-! ## Stream lifecycle theorems -/

/-- Invariant of the camera effect: the effect's captured stream is the
bound one, the live streams are exactly the bound one, bound stream ids
are below the allocation counter, and a stream is only bound while the
camera view is showing. -/
def CamInv (s : CamState) : Prop :=
  s.effectStream = s.boundStream
  ∧ s.live = s.boundStream.toList
  ∧ (∀ id, s.boundStream = some id → id < s.nextId)
  ∧ (∀ id, s.boundStream = some id → s.showCamera = true)

theorem camInv_cleanupEffect (s : CamState)
    (h1 : s.effectStream = s.boundStream)
    (h2 : s.live = s.boundStream.toList) :
    CamInv (cleanupEffect s)
    ∧ (cleanupEffect s).boundStream = none
    ∧ (cleanupEffect s).effectStream = none
    ∧ (cleanupEffect s).live = []
    ∧ (cleanupEffect s).showCamera = s.showCamera
    ∧ (cleanupEffect s).facingMode = s.facingMode
    ∧ (cleanupEffect s).nextId = s.nextId := by
  cases heff : s.effectStream with
  | none =>
      have hb : s.boundStream = none := h1.symm.trans heff
      rw [hb] at h2
      refine ⟨⟨?_, ?_, ?_, ?_⟩, ?_, ?_, ?_, ?_, ?_, ?_⟩ <;>
        simp [cleanupEffect, heff, hb, h2]
  | some id =>
      have hb : s.boundStream = some id := h1.symm.trans heff
      rw [hb] at h2
      refine ⟨⟨?_, ?_, ?_, ?_⟩, ?_, ?_, ?_, ?_, ?_, ?_⟩ <;>
        simp [cleanupEffect, heff, hb, h2]

theorem camInv_setupStream (acqOk : Bool) (s : CamState)
    (hb : s.boundStream = none) (he : s.effectStream = none)
    (hl : s.live = []) :
    CamInv (setupStream acqOk s) := by
  by_cases hsc : s.showCamera
  · by_cases hacq : acqOk
    · refine ⟨?_, ?_, ?_, ?_⟩ <;>
        simp [setupStream, stopPrevStream, acquireStream, hsc, hacq, hb, he, hl]
    · refine ⟨?_, ?_, ?_, ?_⟩ <;>
        simp [setupStream, stopPrevStream, acquireStream, hsc, hacq, hb, he, hl]
  · refine ⟨?_, ?_, ?_, ?_⟩ <;> simp [setupStream, hsc, hb, he, hl]

theorem camInv_camStep (ev : CamEvent) (s : CamState) (h : CamInv s) :
    CamInv (camStep ev s) := by
  obtain ⟨h1, h2, _, _⟩ := h
  cases ev with
  | startCamera acqOk =>
      have hc := camInv_cleanupEffect
        { s with facingMode := .environment, showCamera := true } h1 h2
      exact camInv_setupStream acqOk _ hc.2.1 hc.2.2.1 hc.2.2.2.1
  | stopCameraReq =>
      have hc := camInv_cleanupEffect { s with showCamera := false } h1 h2
      exact camInv_setupStream true _ hc.2.1 hc.2.2.1 hc.2.2.2.1
  | toggleFacing acqOk =>
      have hc := camInv_cleanupEffect
        { s with facingMode :=
            if s.facingMode = .environment then .user else .environment } h1 h2
      exact camInv_setupStream acqOk _ hc.2.1 hc.2.2.1 hc.2.2.2.1
  | unmount => exact (camInv_cleanupEffect s h1 h2).1

theorem camInv_foldl (evs : List CamEvent) (s : CamState) (h : CamInv s) :
    CamInv (evs.foldl (fun t ev => camStep ev t) s) := by
  induction evs generalizing s with
  | nil => exact h
  | cons ev evs ih => exact ih _ (camInv_camStep ev s h)

theorem camInv_reachable (s : CamState) (hs : CamReachable s) : CamInv s := by
  obtain ⟨evs, rfl⟩ := hs
  apply camInv_foldl
  refine ⟨rfl, rfl, ?_, ?_⟩ <;> intro id h <;> simp [CamState.initial] at h

/-- C7: in every reachable camera state at most one media stream is
live, and a facing-mode toggle while a stream is open has stopped every
track of that stream by the moment the new stream is requested
(`toggleMidState`), so that after a successful toggle exactly one stream
is live and it is not the previous one. -/
theorem camera_single_stream (s : CamState) (hs : CamReachable s) :
    s.live.length ≤ 1
    ∧ ∀ id : Nat, s.boundStream = some id →
        (toggleMidState s).live = []
        ∧ (camStep (.toggleFacing true) s).live.length = 1
        ∧ id ∉ (camStep (.toggleFacing true) s).live := by
  have h := camInv_reachable s hs
  obtain ⟨h1, h2, h3, h4⟩ := h
  constructor
  · rw [h2]
    cases s.boundStream <;> simp
  · intro id hb
    have hfresh : id < s.nextId := h3 id hb
    have hshow : s.showCamera = true := h4 id hb
    have hc := camInv_cleanupEffect
      { s with facingMode :=
          if s.facingMode = .environment then .user else .environment } h1 h2
    obtain ⟨-, hcb, hce, hcl, hcs, -, hcn⟩ := hc
    refine ⟨?_, ?_, ?_⟩
    · simp only [toggleMidState, stopPrevStream, hcb, hcl]
    · have hcsc : (cleanupEffect
          { s with facingMode :=
              if s.facingMode = .environment then .user
              else .environment }).showCamera = true := by
        rw [hcs]; exact hshow
      simp only [camStep, effectCycle, setupStream, stopPrevStream,
        acquireStream]
      simp [hcb, hce, hcl, hcsc]
    · have hcsc : (cleanupEffect
          { s with facingMode :=
              if s.facingMode = .environment then .user
              else .environment }).showCamera = true := by
        rw [hcs]; exact hshow
      simp only [camStep, effectCycle, setupStream, stopPrevStream,
        acquireStream]
      simp [hcb, hce, hcl, hcsc, hcn]
      omega

/-- C7 witness: open the camera successfully, then toggle facing mode. -/
theorem camera_single_stream_witness :
    CamReachable (camRun [CamEvent.startCamera true])
    ∧ (camRun [CamEvent.startCamera true]).boundStream = some 0
    ∧ ((toggleMidState (camRun [CamEvent.startCamera true])).live = []
      ∧ (camStep (.toggleFacing true)
            (camRun [CamEvent.startCamera true])).live.length = 1
      ∧ 0 ∉ (camStep (.toggleFacing true)
            (camRun [CamEvent.startCamera true])).live) :=
  ⟨⟨[CamEvent.startCamera true], rfl⟩, rfl,
    (camera_single_stream (camRun [CamEvent.startCamera true])
        ⟨[CamEvent.startCamera true], rfl⟩).2 0 rfl⟩

/-! ## Playback signal theorems -/

/-- C8: once the state is loading, whichever playback attempt succeeds
first clears the loading flag, and completion is idempotent — any signal
arriving after the loading state has been cleared leaves the component
state entirely unchanged. -/
theorem play_signals_race (s : UIState) (sig sig' : PlaySignal)
    (_hload : s.isCameraLoading = true)
    (hfirst : sig = .immediateOk ∨ sig = .metadataOk) :
    (applySignal sig s).isCameraLoading = false
    ∧ applySignal sig' (applySignal sig s) = applySignal sig s := by
  have h1 : applySignal sig s = { s with isCameraLoading := false } := by
    rcases hfirst with rfl | rfl <;> rfl
  refine ⟨by rw [h1], ?_⟩
  rw [h1]
  cases sig' <;> rfl

/-- C8 witness: immediate play succeeds, then the metadata signal fires. -/
theorem play_signals_race_witness :
    (⟨true, .environment, true, false, false⟩ : UIState).isCameraLoading = true
    ∧ (PlaySignal.immediateOk = PlaySignal.immediateOk
        ∨ PlaySignal.immediateOk = PlaySignal.metadataOk)
    ∧ ((applySignal .immediateOk
          ⟨true, .environment, true, false, false⟩).isCameraLoading = false
      ∧ applySignal .metadataOk (applySignal .immediateOk
            ⟨true, .environment, true, false, false⟩)
          = applySignal .immediateOk
            ⟨true, .environment, true, false, false⟩) :=
  ⟨rfl, Or.inl rfl,
    play_signals_race ⟨true, .environment, true, false, false⟩
      .immediateOk .metadataOk rfl (Or.inl rfl)⟩

/-! ## Torch theorems -/

/-- C9: the torch toggle issues a device command or changes state only
when there is an active stream whose first track reports torch
capability (and `applyConstraints` succeeds); in that case it sends the
negation of the current device torch setting and flips the local flag;
when a stream is active but its track reports no torch capability (or
there is no video track), the call is a no-op apart from the
"not supported" alert. -/
theorem toggleTorch_spec (stream : Option StreamInfo) (applyOk : Bool)
    (s : UIState) :
    (((toggleTorch stream applyOk s).deviceCmd.isSome = true
        ∨ (toggleTorch stream applyOk s).state ≠ s) →
      ∃ st tr, stream = some st ∧ st.track = some tr
        ∧ tr.torchCapability = true)
    ∧ (∀ st tr, stream = some st → st.track = some tr →
        tr.torchCapability = true → applyOk = true →
        toggleTorch stream applyOk s =
          ⟨{ s with isTorchOn := !s.isTorchOn }, none, some (!tr.torchSetting)⟩)
    ∧ (∀ st, stream = some st →
        (st.track = none
          ∨ ∃ tr, st.track = some tr ∧ tr.torchCapability = false) →
        toggleTorch stream applyOk s = ⟨s, some .torchNotSupported, none⟩) := by
  refine ⟨?_, ?_, ?_⟩
  · intro h
    cases stream with
    | none => simp [toggleTorch] at h
    | some st =>
        cases htr : st.track with
        | none => simp [toggleTorch, htr] at h
        | some tr =>
            refine ⟨st, tr, rfl, htr, ?_⟩
            by_contra hcap
            simp [toggleTorch, htr, hcap] at h
  · rintro st tr rfl htr hcap rfl
    simp [toggleTorch, htr, hcap]
  · rintro st rfl (htr | ⟨tr, htr, hcap⟩) <;> simp [toggleTorch, htr]
    intro hcap'
    rw [hcap] at hcap'
    cases hcap'

/-- C9 witness: a capable track with the torch currently off, and an
unsupported track. -/
theorem toggleTorch_spec_witness :
    toggleTorch (some ⟨some ⟨true, false⟩⟩) true
        ⟨true, .environment, false, true, false⟩
      = ⟨{ (⟨true, .environment, false, true, false⟩ : UIState) with
            isTorchOn := true }, none, some true⟩
    ∧ toggleTorch (some ⟨some ⟨false, false⟩⟩) true
        ⟨true, .environment, false, false, false⟩
      = ⟨⟨true, .environment, false, false, false⟩,
          some .torchNotSupported, none⟩ :=
  ⟨(toggleTorch_spec (some ⟨some ⟨true, false⟩⟩) true
      ⟨true, .environment, false, true, false⟩).2.1
        ⟨some ⟨true, false⟩⟩ ⟨true, false⟩ rfl rfl rfl rfl,
    (toggleTorch_spec (some ⟨some ⟨false, false⟩⟩) true
      ⟨true, .environment, false, false, false⟩).2.2
        ⟨some ⟨false, false⟩⟩ rfl (Or.inr ⟨⟨false, false⟩, rfl, rfl⟩)⟩

end CropCare
